import Mathlib

/-!
# Verification of the FilesAssistant MCP server (src/tools.js, src/mcp-server.js)

Shallow embedding of the path sandbox (`ensureSafePath`), the file tools
(`analyze_logs`, `search_files`, `organize_files`, `replace_text`,
`delete_file`), the JSON-RPC dispatcher (`handleSingleCall`) and the
HTTP transport front-end, together with theorems settling the frozen
claims about them.

Conventions of the embedding:
* Node `path` strings are modelled as Lean `String`s over `/`-separated
  segments (the server runs on a POSIX-style path namespace).
* Machine I/O (`fs.readFileSync` etc.) is modelled by an explicit
  filesystem state `FS`: a list of files, each with absolute path,
  content and mtime (milliseconds since the Unix epoch, non-negative).
* JavaScript exceptions are modelled by `Except String` results;
  an exception escaping `handleSingleCall` is a `DispatchOutcome.thrown`.
* Regular expressions appear in the source only as `new RegExp(p, "g")`;
  they are modelled for metacharacter-free patterns, where a global
  regex is exactly global literal substring search (this is the case in
  every claim: patterns such as "http" or "error").
-/

set_option autoImplicit false

namespace FilesAssistant

/-! ## Character-list string utilities

Executable primitives over `List Char`, used instead of `String`
library functions so that every theorem evaluates by `decide`/`rfl`. -/

/-- `isPrefixL p l` : does `l` start with `p`? (Boolean, executable.) -/
def isPrefixL : List Char → List Char → Bool
  | [], _ => true
  | _ :: _, [] => false
  | a :: as, b :: bs => a = b && isPrefixL as bs

/-- `String.startsWith`, via the underlying character lists. -/
def startsWithStr (s pre : String) : Bool :=
  isPrefixL pre.data s.data

/-- Split a character list on `/` (used to take a path apart into
segments; consecutive separators yield empty segments, dropped by the
normalizer below, exactly as Node's normalization drops them). -/
def splitSlashL : List Char → List (List Char)
  | [] => [[]]
  | c :: rest =>
    let r := splitSlashL rest
    if c = '/' then [] :: r
    else match r with
      | [] => [[c]]
      | seg :: segs => (c :: seg) :: segs

/-- Path segments of a string. -/
def pathSegments (s : String) : List String :=
  (splitSlashL s.data).map (fun l => ⟨l⟩)

/-- Normalization step of Node's `path.resolve` on an absolute path:
drop empty and `.` segments, let `..` pop the previous segment (and
vanish at the root). -/
def normalizeSegs : List String → List String
  | [] => []
  | seg :: rest =>
    let r := normalizeSegs rest
    if seg = "" ∨ seg = "." then r
    else seg :: r

/-- Apply `..`-resolution left to right over already-cleaned segments. -/
def resolveDotDot (acc : List String) : List String → List String
  | [] => acc
  | seg :: rest =>
    if seg = ".." then resolveDotDot (acc.dropLast) rest
    else resolveDotDot (acc ++ [seg]) rest

/-- Render absolute path segments back to a string (`[] ↦ "/"`,
matching Node, which never emits a trailing separator except at root). -/
def renderAbs (segs : List String) : String :=
  "/" ++ String.intercalate "/" segs

/-- `path.resolve` applied to one absolute path string: split, drop
empty/`.` segments, resolve `..`, re-render. -/
def normalizeAbs (p : String) : String :=
  renderAbs (resolveDotDot [] (normalizeSegs (pathSegments p)))

/-- Embeds Node's `path.resolve(workingDir, filename)` under the
standing assumption that `workingDir` is an absolute path (it is
`config.WORKING_DIR` or `process.cwd()`): an absolute `filename` is
normalized on its own, a relative one is joined to `workingDir` first. -/
def resolvePath (workingDir filename : String) : String :=
  if startsWithStr filename "/" then normalizeAbs filename
  else normalizeAbs (workingDir ++ "/" ++ filename)

/-! ## The path sandbox (src/tools.js, `ensureSafePath`) -/

/-- Embeds `ensureSafePath` of src/tools.js:

```js
function ensureSafePath(filename) {
  const fullPath = path.resolve(workingDir, filename);
  if (!fullPath.startsWith(path.resolve(workingDir))) {
    throw new Error("Attempt to access path outside WORKING_DIR");
  }
  return fullPath;
}
```

`filename` is an `Option String` because callers forward the raw
`filename` argument, and `path.resolve(workingDir, undefined)` throws a
`TypeError` (modelled as the `.error` of its message). The guard is the
source's bare string-prefix test, not a prefix-plus-separator test. -/
def ensureSafePath (workingDir : String) (filename : Option String) :
    Except String String :=
  match filename with
  | none => .error "The \"path\" argument must be of type string. Received undefined"
  | some fn =>
    let fullPath := resolvePath workingDir fn
    if startsWithStr fullPath (normalizeAbs workingDir) then .ok fullPath
    else .error "Attempt to access path outside WORKING_DIR"

example : normalizeAbs "/data" = "/data" := by decide
example : resolvePath "/data" "../data-secret/x" = "/data-secret/x" := by decide
example : resolvePath "/data" "a.txt" = "/data/a.txt" := by decide
example : resolvePath "/data" "../../etc/passwd" = "/etc/passwd" := by decide
example : ensureSafePath "/data" (some "../../etc/passwd") =
    .error "Attempt to access path outside WORKING_DIR" := rfl
example : ensureSafePath "/data" (some "/etc/passwd") =
    .error "Attempt to access path outside WORKING_DIR" := rfl
example : ensureSafePath "/data" (some "sub/a.txt") = .ok "/data/sub/a.txt" := rfl

/-! ## Literal global regex operations

The source only ever builds `new RegExp(p, "g")` from a caller-supplied
pattern and uses it with `String.prototype.match` / `String.prototype.replace`.
For a metacharacter-free pattern (the case in every claim) this is global
literal substring matching: leftmost match, non-overlapping, the scan of
the *source* string resuming right after each match. The recursions are
fueled by the input length (each step consumes at least one character),
keeping them structural and hence kernel-evaluable. The empty pattern
(which in JS matches at every position) is not modelled: it only arises
from an absent argument, which no claim exercises. -/

/-- One fueled step of global literal replacement. -/
def replaceGlobalFuel (search repl : List Char) : Nat → List Char → List Char
  | 0, l => l
  | _ + 1, [] => []
  | fuel + 1, c :: rest =>
    if search.isEmpty then c :: rest
    else if isPrefixL search (c :: rest) then
      repl ++ replaceGlobalFuel search repl fuel (List.drop (search.length - 1) rest)
    else c :: replaceGlobalFuel search repl fuel rest

/-- Embeds `content.replace(new RegExp(search, "g"), repl)` for a
metacharacter-free `search`. -/
def replaceGlobal (search repl s : String) : String :=
  ⟨replaceGlobalFuel search.data repl.data s.data.length s.data⟩

/-- Number of global matches of a literal pattern (fueled as above). -/
def countOccsFuel (pat : List Char) : Nat → List Char → Nat
  | 0, _ => 0
  | _ + 1, [] => 0
  | fuel + 1, c :: rest =>
    if pat.isEmpty then 0
    else if isPrefixL pat (c :: rest) then
      1 + countOccsFuel pat fuel (List.drop (pat.length - 1) rest)
    else countOccsFuel pat fuel rest

/-- Embeds `content.match(new RegExp(pat, "g")) || []` for a literal
pattern: every match is the pattern itself, so the match list is the
pattern replicated once per occurrence. -/
def globalMatches (pat s : String) : List String :=
  List.replicate (countOccsFuel pat.data s.data.length s.data) pat

/-- `String.prototype.includes` (substring test; the empty pattern is
contained in everything, as in JS). -/
def containsSubL (pat : List Char) : List Char → Bool
  | [] => pat.isEmpty
  | c :: rest => isPrefixL pat (c :: rest) || containsSubL pat rest

/-- `s.includes(pat)`. -/
def strIncludes (s pat : String) : Bool := containsSubL pat.data s.data

example : replaceGlobal "http" "https" "http://x" = "https://x" := by decide
example : replaceGlobal "http" "https" "https://x" = "httpss://x" := by decide
example : globalMatches "er" "error berserk" = ["er", "er", "er"] := by decide
example : strIncludes "a.txt" "txt" = true := by decide

/-! ## UTC calendar conversion (`Date.prototype.toISOString`)

`mtime.toISOString()` renders the timestamp in UTC as
`YYYY-MM-DDTHH:mm:ss.sssZ`. Timestamps are modelled as non-negative
milliseconds since the Unix epoch (pre-1970 mtimes are out of scope).
The civil-from-days conversion is the standard Gregorian algorithm. -/

/-- Zero-pad to two digits. -/
def pad2 (n : Nat) : String := if n < 10 then "0" ++ toString n else toString n

/-- Zero-pad to three digits. -/
def pad3 (n : Nat) : String :=
  if n < 10 then "00" ++ toString n
  else if n < 100 then "0" ++ toString n else toString n

/-- Zero-pad to four digits. -/
def pad4 (n : Nat) : String :=
  if n < 10 then "000" ++ toString n
  else if n < 100 then "00" ++ toString n
  else if n < 1000 then "0" ++ toString n else toString n

/-- Gregorian (year, month, day) of a day count since 1970-01-01 (UTC). -/
def civilFromDays (day : Nat) : Nat × Nat × Nat :=
  let z := day + 719468
  let era := z / 146097
  let doe := z % 146097
  let yoe := (doe - doe / 1460 + doe / 36524 - doe / 146096) / 365
  let y := yoe + era * 400
  let doy := doe - (365 * yoe + yoe / 4 - yoe / 100)
  let mp := (5 * doy + 2) / 153
  let d := doy - (153 * mp + 2) / 5 + 1
  let m := if mp < 10 then mp + 3 else mp - 9
  (if m ≤ 2 then y + 1 else y, m, d)

/-- ISO calendar date `YYYY-MM-DD` of a day count since the epoch. -/
def isoDateOfDay (day : Nat) : String :=
  let c := civilFromDays day
  pad4 c.1 ++ "-" ++ pad2 c.2.1 ++ "-" ++ pad2 c.2.2

/-- Embeds `new Date(ms).toISOString()`. -/
def toISOString (ms : Nat) : String :=
  isoDateOfDay (ms / 86400000) ++ "T" ++ pad2 (ms / 3600000 % 24) ++ ":" ++
    pad2 (ms / 60000 % 60) ++ ":" ++ pad2 (ms / 1000 % 60) ++ "." ++
    pad3 (ms % 1000) ++ "Z"

/-- Embeds `mtime.toISOString().split("T")[0]`: the ISO string is built
as `<date>T<time>` and the date part contains no `T`, so the first split
field is exactly the ISO calendar date. -/
def isoDayKey (ms : Nat) : String := isoDateOfDay (ms / 86400000)

example : toISOString 0 = "1970-01-01T00:00:00.000Z" := by decide
example : isoDayKey 1700000000000 = "2023-11-14" := by decide

/-! ## Filesystem state and configuration -/

/-- One regular file: absolute path, content, last-modified time in
milliseconds since the epoch. -/
structure FSFile where
  path : String
  content : String
  mtimeMs : Nat
  deriving Repr, DecidableEq

/-- The filesystem visible to the tools: the regular files, listed in
the order `glob.sync` reports them (directories are implicit; every
path is assumed to lie under the working directory, which is how the
server's root is used). -/
structure FS where
  files : List FSFile
  deriving Repr, DecidableEq

/-- `config.json` as read at startup: `MCP_SERVER_AUTH_TOKEN`,
`WORKING_DIR` (absolute), `ALLOW_DELETE` (boolean). -/
structure Config where
  authToken : String
  workingDir : String
  allowDelete : Bool
  deriving Repr, DecidableEq

/-- `fs.existsSync`. -/
def fsExists (fs : FS) (p : String) : Bool := fs.files.any (fun f => f.path = p)

/-- `fs.readFileSync(p, "utf8")` on an existing file. -/
def fsRead (fs : FS) (p : String) : Option String :=
  (fs.files.find? (fun f => f.path = p)).map FSFile.content

/-- `fs.writeFileSync(p, c, "utf8")` on an existing file (the tools only
write to paths they just read; mtime refresh is not modelled — no claim
depends on the mtime of a rewritten file). -/
def fsWrite (fs : FS) (p c : String) : FS :=
  ⟨fs.files.map (fun f => if f.path = p then ⟨f.path, c, f.mtimeMs⟩ else f)⟩

/-- `fs.unlinkSync`. -/
def fsRemove (fs : FS) (p : String) : FS :=
  ⟨fs.files.filter (fun f => f.path ≠ p)⟩

/-- `fs.renameSync(old, newP)` of a regular file: the file keeps content
and mtime, only its path changes. -/
def fsRename (fs : FS) (old newP : String) : FS :=
  ⟨fs.files.map (fun f => if f.path = old then ⟨newP, f.content, f.mtimeMs⟩ else f)⟩

/-! ## Path helpers used by the tools -/

/-- `path.basename`: the last `/`-separated segment. -/
def basenameOf (p : String) : String :=
  ((pathSegments p).getLast?).getD ""

/-- The suffix of a character list starting at its last `.`, if any. -/
def lastDotSuffix : List Char → Option (List Char)
  | [] => none
  | c :: rest =>
    match lastDotSuffix rest with
    | some s => some s
    | none => if c = '.' then some (c :: rest) else none

/-- `path.extname`: from the last `.` of the basename, including the
dot, except that a dot in the very first position does not count
(`".bashrc"` has no extension). -/
def extnameOf (p : String) : String :=
  match (basenameOf p).data with
  | [] => ""
  | _ :: rest =>
    match lastDotSuffix rest with
    | some s => ⟨s⟩
    | none => ""

/-- `path.relative(workingDir, p)` for `p` strictly under the working
directory: strip the `workingDir ++ "/"` prefix. -/
def relOf (workingDir p : String) : String :=
  ⟨p.data.drop (workingDir.data.length + 1)⟩

/-- Does a root-relative path contain a component starting with `.`?
`glob.sync(root ++ "/**/*")` runs with the default `dot: false`, under
which `**` and `*` never match such a component, so these entries are
invisible to `search_files` and `organize_files`. -/
def isHiddenRel (rel : String) : Bool :=
  (pathSegments rel).any (fun seg => isPrefixL ['.'] seg.data)

/-- `glob.sync(workingDir + "/**/*", { nodir: true })`: every regular
file below the root whose relative path has no dot-leading component,
in the filesystem's listing order. -/
def globFiles (workingDir : String) (fs : FS) : List FSFile :=
  fs.files.filter (fun f => !isHiddenRel (relOf workingDir f.path))

example : basenameOf "/data/sub/x.txt" = "x.txt" := by decide
example : extnameOf "/data/x.TXT" = ".TXT" := by decide
example : extnameOf "/data/.bashrc" = "" := by decide
example : extnameOf "/data/archive.tar.gz" = ".gz" := by decide
example : extnameOf "/data/noext" = "" := by decide
example : relOf "/data" "/data/sub/x.txt" = "sub/x.txt" := by decide
example : isHiddenRel ".git/config" = true := by decide
example : isHiddenRel "sub/.hidden" = true := by decide
example : isHiddenRel "sub/x.txt" = false := by decide

/-! ## Tool arguments and results -/

/-- The `arguments` object of a `tool_call`, restricted to the fields the
five tools destructure; an absent field is `none` (JS `undefined`).
`by_` stands for the source's `by` field (`by` is reserved in Lean). -/
structure JArgs where
  filename : Option String
  pattern : Option String
  query : Option String
  by_ : Option String
  search : Option String
  replace : Option String
  deriving Repr, DecidableEq

/-- `JArgs` with every field absent. -/
def JArgs.empty : JArgs := ⟨none, none, none, none, none, none⟩

/-- The values the tools return (serialized with `JSON.stringify` into
the response's text field). -/
inductive ToolRet where
  /-- A confirmation message string. -/
  | str (s : String)
  /-- A list of root-relative paths (`search_files`). -/
  | paths (ps : List String)
  /-- A mapping from group key to root-relative paths, in insertion
  order (`organize_files`). -/
  | groups (g : List (String × List String))
  /-- `{ matches, count }` (`analyze_logs`); `matchList` is the source's
  `matches` field (`matches` is reserved in Lean). -/
  | logStats (matchList : List String) (count : Nat)
  deriving Repr, DecidableEq

/-- A tool handler: takes the (possibly absent) arguments object and the
filesystem, returns the settled promise (value or rejection message)
and the filesystem after any side effects. -/
def Tool : Type := Option JArgs → FS → Except String ToolRet × FS

/-- JS `String(x)` on a possibly-undefined string. -/
def strOfJs (o : Option String) : String := o.getD "undefined"

/-- The rejection produced when a handler destructures an absent
`arguments` object (a `TypeError`, delivered as a rejected promise). -/
def destructureError : String := "Cannot destructure arguments of undefined"

/-! ## The five tools (src/tools.js) -/

/-- Embeds `analyze_logs`: resolve the filename through the sandbox,
require the file to exist, and return the global matches of the pattern
together with their count. An absent `pattern` builds the empty regex
in JS; that corner (never exercised by a claim) is modelled as zero
matches via `getD ""`. -/
def analyze_logs (cfg : Config) : Tool := fun args fs =>
  match args with
  | none => (.error destructureError, fs)
  | some a =>
    match ensureSafePath cfg.workingDir a.filename with
    | .error m => (.error m, fs)
    | .ok filePath =>
      if !fsExists fs filePath then (.error "Log file not found", fs)
      else
        let content := (fsRead fs filePath).getD ""
        let ms := globalMatches (a.pattern.getD "") content
        (.ok (.logStats ms ms.length), fs)

/-- Embeds `search_files`: glob every file under the root, filter by
basename substring (`by = "name"`, the default), content substring
(`by = "content"`; in the model every file is readable, so the
source's skip-on-read-error catch never fires), or ISO-timestamp prefix
(`by = "date"`); any other selector leaves `results` empty. Returns
root-relative paths. -/
def search_files (cfg : Config) : Tool := fun args fs =>
  match args with
  | none => (.error destructureError, fs)
  | some a =>
    let by_ := a.by_.getD "name"
    let files := globFiles cfg.workingDir fs
    let results :=
      if by_ = "name" then
        files.filter (fun f => strIncludes (basenameOf f.path) (strOfJs a.query))
      else if by_ = "content" then
        files.filter (fun f => strIncludes f.content (strOfJs a.query))
      else if by_ = "date" then
        files.filter (fun f => startsWithStr (toISOString f.mtimeMs) (strOfJs a.query))
      else []
    (.ok (.paths (results.map (fun f => relOf cfg.workingDir f.path))), fs)

/-- Append a value to a key's list in an insertion-ordered association
list (`groups[groupKey] = groups[groupKey] || []; groups[groupKey].push(v)`). -/
def pushGroup : List (String × List String) → String → String →
    List (String × List String)
  | [], k, v => [(k, [v])]
  | (k', vs) :: rest, k, v =>
    if k' = k then (k', vs ++ [v]) :: rest else (k', vs) :: pushGroup rest k v

/-- The group key `organize_files` computes for one file: the extension
without its dot (`"no-extension"` when that is empty — note: NOT
lower-cased, the source has no case conversion) for `by = "extension"`,
the UTC ISO calendar day of the mtime for `by = "date"`, and JS
`undefined` (`none`) otherwise. -/
def groupKeyOf (by_ : String) (f : FSFile) : Option String :=
  if by_ = "extension" then
    let e := (extnameOf f.path).drop 1
    some (if e = "" then "no-extension" else e)
  else if by_ = "date" then some (isoDayKey f.mtimeMs)
  else none

/-- The loop body of `organize_files` over the glob snapshot: compute
the key (an undefined key makes `path.join(workingDir, undefined)`
throw), rename the file into `workingDir/key/basename` (directories are
implicit in `FS`; `mkdirSync` has no modelled effect), and record the
root-relative new path under the key. -/
def organizeGo (wd by_ : String) :
    List FSFile → List (String × List String) → FS →
    Except String ToolRet × FS
  | [], groups, fs => (.ok (.groups groups), fs)
  | f :: rest, groups, fs =>
    match groupKeyOf by_ f with
    | none =>
      (.error "The \"path\" argument must be of type string. Received undefined", fs)
    | some key =>
      let newPath := wd ++ "/" ++ key ++ "/" ++ basenameOf f.path
      organizeGo wd by_ rest (pushGroup groups key (relOf wd newPath))
        (fsRename fs f.path newPath)

/-- Embeds `organize_files`: snapshot the glob result, then move each
file into its group directory, accumulating the returned mapping. -/
def organize_files (cfg : Config) : Tool := fun args fs =>
  match args with
  | none => (.error destructureError, fs)
  | some a =>
    let by_ := a.by_.getD "extension"
    organizeGo cfg.workingDir by_ (globFiles cfg.workingDir fs) [] fs

/-- Embeds `replace_text`: sandbox-resolve the filename, require
existence, globally replace the pattern in the content and write the
result back. An absent `search` builds the empty regex (unexercised by
the claims, modelled as no-op via `getD ""`); an absent `replace`
stringifies to `"undefined"`. -/
def replace_text (cfg : Config) : Tool := fun args fs =>
  match args with
  | none => (.error destructureError, fs)
  | some a =>
    match ensureSafePath cfg.workingDir a.filename with
    | .error m => (.error m, fs)
    | .ok filePath =>
      if !fsExists fs filePath then (.error "File not found", fs)
      else
        let content := (fsRead fs filePath).getD ""
        let newContent := replaceGlobal (a.search.getD "") (strOfJs a.replace) content
        (.ok (.str ("Text replaced in " ++ filePath)), fsWrite fs filePath newContent)

/-- Embeds `delete_file`: after destructuring, refuse when the
configuration disables deletion (before touching any path or the
filesystem), else sandbox-resolve, require existence, and unlink. -/
def delete_file (cfg : Config) : Tool := fun args fs =>
  match args with
  | none => (.error destructureError, fs)
  | some a =>
    if !cfg.allowDelete then
      (.error "File deletion is disabled in configuration", fs)
    else
      match ensureSafePath cfg.workingDir a.filename with
      | .error m => (.error m, fs)
      | .ok filePath =>
        if !fsExists fs filePath then (.error "File not found", fs)
        else (.ok (.str ("File deleted: " ++ filePath)), fsRemove fs filePath)

/-- The keys of `module.exports` of src/tools.js, in insertion order
(this is what `Object.keys(tools)` yields). -/
def toolNames : List String :=
  ["analyze_logs", "search_files", "organize_files", "replace_text", "delete_file"]

/-- The registry: `tools[name]` of the dispatcher. `none` models the JS
`undefined` obtained for any other property name. -/
def toolsRegistry (cfg : Config) : String → Option Tool
  | "analyze_logs" => some (analyze_logs cfg)
  | "search_files" => some (search_files cfg)
  | "organize_files" => some (organize_files cfg)
  | "replace_text" => some (replace_text cfg)
  | "delete_file" => some (delete_file cfg)
  | _ => none

/-! ## JSON-RPC requests and responses (src/mcp-server.js) -/

/-- A JSON correlation id: `null`, a string, or a number. -/
inductive Jid where
  | jnull
  | jstr (s : String)
  | jnum (n : Int)
  deriving Repr, DecidableEq

/-- The `params` member of a request. `JSON.parse` output is either
`null` (destructuring it throws), a non-null primitive (destructuring
yields `undefined` for both properties), or an object carrying `name`
and `arguments`. -/
inductive JParams where
  | jnull
  | prim
  | obj (name : Option String) (arguments : Option JArgs)
  deriving Repr, DecidableEq

/-- One parsed JSON-RPC request. `id = none` and `params = none` model
absent members (JS `undefined`). -/
structure Request where
  method : String
  id : Option Jid
  params : Option JParams
  deriving Repr, DecidableEq

/-- The body of a response envelope: either the `result` member or the
`error` member with its numeric code and message. -/
inductive RespBody where
  /-- `result: { content: [{ type: "text", text: JSON.stringify(v) }] }`. -/
  | toolText (v : ToolRet)
  /-- `result: { capabilities: { tools: names } }`. -/
  | capabilities (names : List String)
  /-- `error: { code, message }`. -/
  | error (code : Int) (message : String)
  deriving Repr, DecidableEq

/-- A serialized response envelope. `id = none` means the serialized
object has NO `id` member at all (`JSON.stringify` drops a member whose
value is `undefined`, and the top-level error envelopes are object
literals without an `id` key); `id = some .jnull` would be an explicit
`"id": null`. -/
structure Response where
  id : Option Jid
  body : RespBody
  deriving Repr, DecidableEq

/-- The result of `handleSingleCall`: either a fulfilled promise with a
response envelope, or a rejection (an exception escaping the function)
carrying the error's message. -/
inductive DispatchOutcome where
  | ok (resp : Response)
  | thrown (msg : String)
  deriving Repr, DecidableEq

/-- Did the dispatch reject rather than produce an envelope? -/
def DispatchOutcome.isThrown : DispatchOutcome → Bool
  | .thrown _ => true
  | .ok _ => false

/-- The error code of the produced envelope, when there is one. -/
def DispatchOutcome.errCode : DispatchOutcome → Option Int
  | .ok ⟨_, .error c _⟩ => some c
  | _ => none

/-- The `tool_call` arm of `handleSingleCall`. The source destructures
`json.params` BEFORE entering the `try` block, so a missing or `null`
`params` throws out of the function (a `.thrown` outcome); everything
after that point is inside the `try` and is converted to a `-32000`
envelope: an unknown (or undefined) tool name makes
`tools[name](args)` throw `TypeError`, and a handler rejection carries
the handler's message. Every envelope echoes `json.id` (here `id`). -/
def dispatchToolCall (cfg : Config) (fs : FS) (id : Option Jid) :
    Option JParams → DispatchOutcome × FS
  | none => (.thrown "Cannot destructure property 'name' of 'undefined' as it is undefined.", fs)
  | some .jnull => (.thrown "Cannot destructure property 'name' of 'null' as it is null.", fs)
  | some .prim =>
    (.ok ⟨id, .error (-32000) "tools[name] is not a function"⟩, fs)
  | some (.obj name args) =>
    match name.bind (toolsRegistry cfg) with
    | none => (.ok ⟨id, .error (-32000) "tools[name] is not a function"⟩, fs)
    | some handler =>
      match handler args fs with
      | (.ok v, fs') => (.ok ⟨id, .toolText v⟩, fs')
      | (.error m, fs') => (.ok ⟨id, .error (-32000) m⟩, fs')

/-- Embeds `handleSingleCall` of src/mcp-server.js: the `tool_call` arm
is `dispatchToolCall` above; `initialize` answers with the registry keys
filtered by `name !== "delete_file" || config.ALLOW_DELETE`; any other
method gets the `-32600` envelope. Every envelope echoes `json.id`. -/
def handleSingleCall (cfg : Config) (fs : FS) (req : Request) :
    DispatchOutcome × FS :=
  if req.method = "tool_call" then
    dispatchToolCall cfg fs req.id req.params
  else if req.method = "initialize" then
    (.ok ⟨req.id, .capabilities
      (toolNames.filter (fun n => n ≠ "delete_file" || cfg.allowDelete))⟩, fs)
  else
    (.ok ⟨req.id, .error (-32600) "Invalid method"⟩, fs)

/-! ## HTTP transport front-end (src/mcp-server.js, `http.createServer`) -/

/-- The request body after `JSON.parse`: a parse failure (with the
thrown error's message), a single request object, or an array of
request objects. -/
inductive ParsedBody where
  | malformed (msg : String)
  | single (r : Request)
  | batch (rs : List Request)
  deriving Repr, DecidableEq

/-- The serialized reply payload: one envelope object or an array of
envelopes (`JSON.stringify(responses.length === 1 ? responses[0] : responses)`). -/
inductive Payload where
  | envelope (r : Response)
  | envelopes (rs : List Response)
  deriving Repr, DecidableEq

/-- Is the serialized payload a JSON array? -/
def Payload.isArray : Payload → Bool
  | .envelopes _ => true
  | .envelope _ => false

/-- An HTTP reply: status code and serialized body. -/
structure HttpResponse where
  status : Nat
  payload : Payload
  deriving Repr, DecidableEq

/-- The singleton-collapsing serialization of the collected responses:
`responses.length === 1 ? responses[0] : responses`. -/
def shapeResponses : List Response → Payload
  | [r] => .envelope r
  | rs => .envelopes rs

/-- The sequential batch loop: `for (const item of json) { const resp =
await handleSingleCall(item); if (resp) responses.push(resp); }` — the
dispatcher never fulfills with a falsy value, and a rejection aborts the
loop and propagates to the surrounding `catch`. -/
def runBatch (cfg : Config) (fs : FS) :
    List Request → Except String (List Response) × FS
  | [] => (.ok [], fs)
  | r :: rs =>
    match handleSingleCall cfg fs r with
    | (.thrown m, fs') => (.error m, fs')
    | (.ok resp, fs') =>
      match runBatch cfg fs' rs with
      | (.ok resps, fs'') => (.ok (resp :: resps), fs'')
      | (.error m, fs'') => (.error m, fs'')

/-- The `req.on("end")` handler after authentication: parse the body,
dispatch (single or batch), serialize with the singleton collapse and
status 200; any exception — a parse failure or a dispatcher rejection —
reaches the `catch`, which replies 500 with a `-32000` envelope built
as an object literal WITHOUT an `id` member. -/
def handleParsedBody (cfg : Config) (fs : FS) : ParsedBody → HttpResponse × FS
  | .malformed m => (⟨500, .envelope ⟨none, .error (-32000) m⟩⟩, fs)
  | .single r =>
    match handleSingleCall cfg fs r with
    | (.thrown m, fs') => (⟨500, .envelope ⟨none, .error (-32000) m⟩⟩, fs')
    | (.ok resp, fs') => (⟨200, shapeResponses [resp]⟩, fs')
  | .batch rs =>
    match runBatch cfg fs rs with
    | (.error m, fs') => (⟨500, .envelope ⟨none, .error (-32000) m⟩⟩, fs')
    | (.ok resps, fs') => (⟨200, shapeResponses resps⟩, fs')

/-- An inbound HTTP request: method, URL, the `authorization` header
(`none` when absent), and the body (carried pre-parsed; parsing only
happens after authentication, which the model reflects by never
inspecting `body` on the auth-failure and not-found paths). -/
structure HttpRequest where
  method : String
  url : String
  authorization : Option String
  body : ParsedBody
  deriving Repr, DecidableEq

/-- Embeds the `http.createServer` callback: route check, then the
bearer comparison `!authHeader || authHeader !== "Bearer " + authToken`
(an absent header is falsy, so both arms produce the same 401 reply —
an envelope without an `id` member and code `-32001`), then body
handling. -/
def serverHandler (cfg : Config) (fs : FS) (req : HttpRequest) :
    HttpResponse × FS :=
  if req.method = "POST" ∧ req.url = "/mcp" then
    match req.authorization with
    | none => (⟨401, .envelope ⟨none, .error (-32001) "Unauthorized"⟩⟩, fs)
    | some h =>
      if h = "Bearer " ++ cfg.authToken then handleParsedBody cfg fs req.body
      else (⟨401, .envelope ⟨none, .error (-32001) "Unauthorized"⟩⟩, fs)
  else
    (⟨404, .envelope ⟨none, .error (-32600) "Not Found"⟩⟩, fs)

/-! ## Concrete fixtures used by witnesses and counterexamples -/

/-- A configuration with deletion disabled and root `/data`. -/
def cfg0 : Config := ⟨"tok", "/data", false⟩

/-- A one-file filesystem: `/data/a.txt` containing `"http://x"`. -/
def fs0 : FS := ⟨[⟨"/data/a.txt", "http://x", 0⟩]⟩

/-- An `initialize` request with id 1. -/
def reqInit : Request := ⟨"initialize", some (.jnum 1), none⟩

/-- The response `reqInit` receives under `cfg0` (deletion disabled). -/
def respInit : Response :=
  ⟨some (.jnum 1), .capabilities
    ["analyze_logs", "search_files", "organize_files", "replace_text"]⟩

/-- A request with an unsupported method. -/
def reqBogus : Request := ⟨"frobnicate", some (.jnum 2), none⟩

/-- The `-32600` envelope `reqBogus` receives. -/
def respBogus : Response := ⟨some (.jnum 2), .error (-32600) "Invalid method"⟩

/-- A `tool_call` request whose `params` member is absent. -/
def reqToolNoParams : Request := ⟨"tool_call", some (.jnum 3), none⟩

/-- A well-formed `tool_call` naming an unregistered tool. -/
def reqUnknownTool : Request :=
  ⟨"tool_call", some (.jnum 4), some (.obj (some "frobnicate") none)⟩

/-- Arguments for `replace_text`: `{filename: "a.txt", search: "http",
replace: "https"}`. -/
def replaceArgs : JArgs := ⟨some "a.txt", none, none, none, some "http", some "https"⟩

/-- Arguments `{by: "extension"}` for `organize_files`. -/
def orgExtArgs : JArgs := ⟨none, none, none, some "extension", none, none⟩

/-- Arguments `{by: "date"}` for `organize_files`. -/
def orgDateArgs : JArgs := ⟨none, none, none, some "date", none, none⟩

/-- A root holding one file whose extension is upper-case. -/
def fsUpper : FS := ⟨[⟨"/data/A.TXT", "", 0⟩]⟩

/-- A root holding `x.txt`, `y.log` (modified one UTC day later) and a
dot-file. -/
def fsOrg : FS :=
  ⟨[⟨"/data/x.txt", "hello", 0⟩, ⟨"/data/y.log", "ok", 86400000⟩,
    ⟨"/data/.hidden", "h", 0⟩]⟩

/-- The list stored under a key in an insertion-ordered association
list (the first matching entry, as JS property lookup finds it). -/
def groupVals : List (String × List String) → String → List String
  | [], _ => []
  | (k', vs) :: rest, k => if k' = k then vs else groupVals rest k

/-- The groups mapping of a fulfilled `organize_files` result, when the
run succeeded. -/
def organizeGroupsOf (out : Except String ToolRet × FS) :
    Option (List (String × List String)) :=
  match out.1 with
  | .ok (.groups g) => some g
  | _ => none

/-! ## Helper lemmas shared between claims -/

/-- Any fulfilled dispatch echoes the request's `id` member verbatim. -/
theorem dispatch_ok_id (cfg : Config) (fs : FS) (req : Request)
    (resp : Response) (fs' : FS)
    (h : handleSingleCall cfg fs req = (.ok resp, fs')) : resp.id = req.id := by
  unfold handleSingleCall at h
  split at h
  · unfold dispatchToolCall at h
    split at h
    · exact absurd (congrArg Prod.fst h) (by simp)
    · exact absurd (congrArg Prod.fst h) (by simp)
    · cases h; rfl
    · split at h
      · cases h; rfl
      · split at h
        · cases h; rfl
        · cases h; rfl
  · split at h
    · cases h; rfl
    · cases h; rfl

/-- Appending a value under a key changes the key's stored list by one
appended element and leaves every other key's list unchanged. -/
theorem groupVals_pushGroup (g : List (String × List String)) (k v k' : String) :
    groupVals (pushGroup g k v) k' =
      if k = k' then groupVals g k' ++ [v] else groupVals g k' := by
  induction g with
  | nil =>
    simp only [pushGroup, groupVals]
    split <;> simp [groupVals, *]
  | cons hd t ih =>
    rcases hd with ⟨k'', vs⟩
    by_cases h1 : k'' = k
    · subst h1
      simp only [pushGroup, if_pos rfl, groupVals]
      by_cases h2 : k'' = k'
      · subst h2
        simp [groupVals]
      · simp [groupVals, h2]
    · simp only [pushGroup, if_neg h1, groupVals]
      by_cases h2 : k'' = k'
      · subst h2
        have : ¬k = k'' := fun he => h1 he.symm
        simp [groupVals, this]
      · simp [groupVals, h2, ih]

/-- `path.relative(workingDir, path.join(workingDir, key, base))` is
`key/base`: stripping the root prefix and its separator from the joined
destination recovers the group-relative path. -/
theorem relOf_join (wd key base : String) :
    relOf wd (wd ++ "/" ++ key ++ "/" ++ base) = key ++ "/" ++ base := by
  apply String.ext
  show ((((wd.data ++ ['/']) ++ key.data) ++ ['/']) ++ base.data).drop
      (wd.data.length + 1) = (key.data ++ ['/']) ++ base.data
  have hassoc : (((wd.data ++ ['/']) ++ key.data) ++ ['/']) ++ base.data =
      (wd.data ++ ['/']) ++ ((key.data ++ ['/']) ++ base.data) := by
    simp [List.append_assoc]
  have hlen : wd.data.length + 1 = (wd.data ++ ['/']).length := by simp
  rw [hassoc, hlen, List.drop_left]

/-- The accumulator invariant of the `organize_files` loop: when every
file in the remaining snapshot has a defined group key, the run
succeeds, and each key's final list is its accumulated list followed by
`key/basename` for each remaining snapshot file filed under that key,
in snapshot order. -/
theorem organizeGo_groups (wd by_ : String)
    (hby : ∀ f : FSFile, (groupKeyOf by_ f).isSome = true) :
    ∀ (l : List FSFile) (groups : List (String × List String)) (fs : FS)
      (k : String),
      (organizeGroupsOf (organizeGo wd by_ l groups fs)).map
          (fun g => groupVals g k) =
        some (groupVals groups k ++ l.filterMap (fun f =>
          if (groupKeyOf by_ f).getD "" = k
          then some (k ++ "/" ++ basenameOf f.path) else none)) := by
  intro l
  induction l with
  | nil => intro groups fs k; simp [organizeGo, organizeGroupsOf]
  | cons f t ih =>
    intro groups fs k
    rcases hk : groupKeyOf by_ f with _ | key
    · exact absurd (hk ▸ hby f) (by simp)
    · simp only [organizeGo, hk]
      rw [ih]
      rw [relOf_join, groupVals_pushGroup]
      simp only [List.filterMap_cons, hk, Option.getD_some]
      by_cases hkey : key = k
      · subst hkey
        simp
      · simp [hkey]

/-! ## Claim C1 -/

/-- C1 (code bug): the claim says every canonicalized resolution that
escapes the root — in particular a sibling directory whose name shares
the root's name as a string prefix — makes `ensureSafePath` fail with
the sandbox-violation error. The code's guard is the bare string-prefix
test `fullPath.startsWith(path.resolve(workingDir))`: with root `/data`,
the input `../data-secret/x` resolves to `/data-secret/x`, which starts
with the string `/data`, so `ensureSafePath` RETURNS the escaping path
instead of failing — contradicting the function's own stated purpose
("Ensure file paths stay within WORKING_DIR"). -/
theorem c1_sibling_prefix_accepted :
    ensureSafePath "/data" (some "../data-secret/x") = .ok "/data-secret/x" := rfl

/-! ## Claim C4 -/

/-- C4 (counterexample): after the first `replace_text` run has produced
`"https://x"`, running the identical call again does NOT leave the
content unchanged: the global regex `/http/g` matches the `"http"`
prefix of `"https"` again, and the file becomes `"httpss://x"` — exactly
the double substitution the claim rules out. -/
theorem c4_replace_not_idempotent :
    fsRead (replace_text cfg0 (some replaceArgs)
        (replace_text cfg0 (some replaceArgs) fs0).2).2 "/data/a.txt" =
      some "httpss://x"
    ∧ ("httpss://x" : String) ≠ "https://x" :=
  ⟨rfl, by decide⟩

/-- C4 (amended): running `replace_text({filename:"a.txt", search:"http",
replace:"https"})` on content `"http://x"` yields `"https://x"`, but the
call is NOT idempotent: a second identical run performs the substitution
again inside the prior replacement and yields `"httpss://x"`. -/
theorem c4_replace_amended :
    fsRead (replace_text cfg0 (some replaceArgs) fs0).2 "/data/a.txt" =
      some "https://x"
    ∧ fsRead (replace_text cfg0 (some replaceArgs)
        (replace_text cfg0 (some replaceArgs) fs0).2).2 "/data/a.txt" =
      some "httpss://x" :=
  ⟨rfl, rfl⟩

/-! ## Claim C6 -/

/-- C6: an `initialize` request returns, for either value of the
deletion flag, exactly the registered operation names in registry
order, with `delete_file` included when deletion is enabled and
excluded when it is disabled, and the four other names always
present. -/
theorem c6_initialize_capabilities (cfg : Config) (fs : FS) (i : Option Jid) :
    handleSingleCall cfg fs ⟨"initialize", i, none⟩ =
      (.ok ⟨i, .capabilities (if cfg.allowDelete then
          ["analyze_logs", "search_files", "organize_files", "replace_text",
            "delete_file"]
        else
          ["analyze_logs", "search_files", "organize_files", "replace_text"])⟩,
        fs) := by
  rcases cfg with ⟨t, w, b⟩
  cases b <;> rfl

/-! ## Claim C7 -/

/-- C7: with deletion disabled, a `tool_call` of `delete_file` — for ANY
arguments object, whatever filename it names and whether or not that
file exists — produces the `-32000` envelope whose message says deletion
is disabled, and returns the filesystem completely unchanged (so any
file present before the call is still present after it). -/
theorem c7_delete_disabled (cfg : Config) (fs : FS) (i : Option Jid) (a : JArgs)
    (hd : cfg.allowDelete = false) :
    handleSingleCall cfg fs
        ⟨"tool_call", i, some (.obj (some "delete_file") (some a))⟩ =
      (.ok ⟨i, .error (-32000) "File deletion is disabled in configuration"⟩,
        fs) := by
  simp [handleSingleCall, dispatchToolCall, toolsRegistry, delete_file, hd]

/-- Witness for C7 at `cfg0` (deletion disabled), the one-file
filesystem `fs0` and the existing filename `a.txt`. -/
theorem c7_delete_disabled_witness :
    handleSingleCall cfg0 fs0
        ⟨"tool_call", some (.jnum 7),
          some (.obj (some "delete_file")
            (some ⟨some "a.txt", none, none, none, none, none⟩))⟩ =
      (.ok ⟨some (.jnum 7),
          .error (-32000) "File deletion is disabled in configuration"⟩,
        fs0) :=
  c7_delete_disabled cfg0 fs0 (some (.jnum 7))
    ⟨some "a.txt", none, none, none, none, none⟩ rfl

/-! ## Claim C10 -/

/-- C10: for any arguments whose `by` selector is none of `"name"`,
`"content"` and `"date"`, `search_files` silently succeeds with the
empty path list, whatever the query and the filesystem. -/
theorem c10_unknown_selector_empty (cfg : Config) (fs : FS)
    (fn pat q s r : Option String) (b : String)
    (h1 : b ≠ "name") (h2 : b ≠ "content") (h3 : b ≠ "date") :
    search_files cfg (some ⟨fn, pat, q, some b, s, r⟩) fs =
      (.ok (.paths []), fs) := by
  simp [search_files, h1, h2, h3]

/-- Witness for C10: selector `"size"` with query `"x"` on `fs0`. -/
theorem c10_unknown_selector_empty_witness :
    search_files cfg0 (some ⟨none, none, some "x", some "size", none, none⟩) fs0 =
      (.ok (.paths []), fs0) :=
  c10_unknown_selector_empty cfg0 fs0 none none (some "x") none none "size"
    (by decide) (by decide) (by decide)

/-! ## Claim C2 -/

/-- A successful batch run answers each request in order with its own
envelope: the response list has the batch's length and echoes the ids
positionally. -/
theorem runBatch_ok_spec (cfg : Config) :
    ∀ (rs : List Request) (fs : FS) (resps : List Response) (fs' : FS),
      runBatch cfg fs rs = (.ok resps, fs') →
      resps.length = rs.length ∧ resps.map Response.id = rs.map Request.id := by
  intro rs
  induction rs with
  | nil =>
    intro fs resps fs' h
    unfold runBatch at h
    cases h
    exact ⟨rfl, rfl⟩
  | cons r rest ih =>
    intro fs resps fs' h
    unfold runBatch at h
    split at h
    · exact absurd (congrArg Prod.fst h) (by simp)
    · rename_i resp fs1 hd
      split at h
      · rename_i resps1 fs2 ht
        simp only [Prod.mk.injEq, Except.ok.injEq] at h
        obtain ⟨h1, h2⟩ := h
        subst h1
        have hi := ih fs1 resps1 fs2 ht
        have hid := dispatch_ok_id cfg fs r resp fs1 hd
        simp [hi.1, hi.2, hid]
      · exact absurd (congrArg Prod.fst h) (by simp)

/-- C2 (counterexample): a well-formed one-element array body — the
single `initialize` request `reqInit` — is answered with a SINGLE
serialized response object, not a one-element array: the serializer
collapses `responses.length === 1` to `responses[0]`. -/
theorem c2_singleton_batch_not_array :
    ((handleParsedBody cfg0 fs0 (.batch [reqInit])).1.payload).isArray = false :=
  rfl

/-- C2 (amended): a single (non-array) request object yields a single
response object, and an array of N requests yields the N responses in
request order — but serialized as an array only when N ≠ 1: a
one-element array input is collapsed to the single response object
(the singleton-detection rule of `responses.length === 1 ?
responses[0] : responses`). -/
theorem c2_response_shape_amended (cfg : Config) (fs : FS)
    (rs : List Request) (resps : List Response) (fs' : FS)
    (req : Request) (resp : Response) (fs2 : FS)
    (hb : runBatch cfg fs rs = (.ok resps, fs'))
    (hs : handleSingleCall cfg fs req = (.ok resp, fs2)) :
    handleParsedBody cfg fs (.batch rs) = (⟨200, shapeResponses resps⟩, fs')
    ∧ resps.length = rs.length
    ∧ resps.map Response.id = rs.map Request.id
    ∧ (shapeResponses resps).isArray = decide (resps.length ≠ 1)
    ∧ handleParsedBody cfg fs (.single req) = (⟨200, .envelope resp⟩, fs2) := by
  have hspec := runBatch_ok_spec cfg rs fs resps fs' hb
  refine ⟨?_, hspec.1, hspec.2, ?_, ?_⟩
  · simp [handleParsedBody, hb]
  · rcases resps with _ | ⟨a, _ | ⟨b, t⟩⟩ <;>
      simp [shapeResponses, Payload.isArray]
  · simp [handleParsedBody, hs, shapeResponses]

/-- Witness for C2 at a concrete two-element batch (`initialize` and an
invalid method) and the concrete single request `reqInit`, under `cfg0`
and `fs0`. -/
theorem c2_response_shape_amended_witness :
    handleParsedBody cfg0 fs0 (.batch [reqInit, reqBogus]) =
      (⟨200, shapeResponses [respInit, respBogus]⟩, fs0)
    ∧ ([respInit, respBogus] : List Response).length =
      ([reqInit, reqBogus] : List Request).length
    ∧ [respInit, respBogus].map Response.id = [reqInit, reqBogus].map Request.id
    ∧ (shapeResponses [respInit, respBogus]).isArray =
      decide (([respInit, respBogus] : List Response).length ≠ 1)
    ∧ handleParsedBody cfg0 fs0 (.single reqInit) =
      (⟨200, .envelope respInit⟩, fs0) :=
  c2_response_shape_amended cfg0 fs0 [reqInit, reqBogus] [respInit, respBogus]
    fs0 reqInit respInit fs0 rfl rfl

/-! ## Claim C3 -/

/-- C3 (counterexample): a `tool_call` request whose `params` member is
absent makes `handleSingleCall` THROW (the destructuring of
`json.params` happens before the `try` block), so the fault propagates
out of the dispatcher to the transport layer instead of being returned
as a `-32000` envelope. -/
theorem c3_missing_params_throws :
    ((handleSingleCall cfg0 fs0 reqToolNoParams).1).isThrown = true := rfl

/-- C3 (amended): for every `tool_call` whose `params` member is present
and not `null`, the dispatcher never lets a fault escape — the outcome
is always exactly one envelope — and each enumerated failure mode is
surfaced as the `-32000` error envelope carrying the failure's message:
non-object `params` and an unknown or undefined tool name produce the
`TypeError` text of calling `tools[name]` (`"tools[name] is not a
function"`) with the filesystem untouched, and a handler rejection with
message `m` produces the envelope with exactly `m` and the handler's
resulting filesystem; the sole non-error outcome is an actual handler
success, surfaced as the success envelope of its value. When `params`
is absent or `null`, the destructuring fault propagates out of the
dispatcher (the transport's catch then answers 500). -/
theorem c3_dispatch_errors_amended (cfg : Config) (fs : FS) (req : Request)
    (p : JParams) (hm : req.method = "tool_call") (hp : req.params = some p)
    (hnn : p ≠ JParams.jnull) :
    ((handleSingleCall cfg fs req).1).isThrown = false
    ∧ (p = JParams.prim →
        handleSingleCall cfg fs req =
          (.ok ⟨req.id, .error (-32000) "tools[name] is not a function"⟩, fs))
    ∧ (∀ name args, p = JParams.obj name args →
        name.bind (toolsRegistry cfg) = none →
        handleSingleCall cfg fs req =
          (.ok ⟨req.id, .error (-32000) "tools[name] is not a function"⟩, fs))
    ∧ (∀ name args handler m fs', p = JParams.obj name args →
        name.bind (toolsRegistry cfg) = some handler →
        handler args fs = (.error m, fs') →
        handleSingleCall cfg fs req = (.ok ⟨req.id, .error (-32000) m⟩, fs'))
    ∧ (∀ name args handler v fs', p = JParams.obj name args →
        name.bind (toolsRegistry cfg) = some handler →
        handler args fs = (.ok v, fs') →
        handleSingleCall cfg fs req = (.ok ⟨req.id, .toolText v⟩, fs')) := by
  unfold handleSingleCall
  rw [if_pos hm, hp]
  refine ⟨?_, ?_, ?_, ?_, ?_⟩
  · cases p with
    | jnull => exact absurd rfl hnn
    | prim => rfl
    | obj name args =>
      simp only [dispatchToolCall]
      cases hreg : name.bind (toolsRegistry cfg) with
      | none => rfl
      | some handler =>
        rcases hh : handler args fs with ⟨r, fsh⟩
        cases r <;> simp [hh, DispatchOutcome.isThrown]
  · intro hprim
    subst hprim
    rfl
  · intro name args hobj hreg
    subst hobj
    simp [dispatchToolCall, hreg]
  · intro name args handler m fs' hobj hreg hh
    subst hobj
    simp [dispatchToolCall, hreg, hh]
  · intro name args handler v fs' hobj hreg hh
    subst hobj
    simp [dispatchToolCall, hreg, hh]

/-- Witness for C3 at the concrete request `reqUnknownTool` (a
`tool_call` with object params naming an unregistered tool): the
dispatch does not throw, and the unknown-tool conjunct is exercised
with true antecedents (the registry lookup for `"frobnicate"` is
`none`), pinning the `-32000` `"tools[name] is not a function"`
envelope. -/
theorem c3_dispatch_errors_amended_witness :
    ((handleSingleCall cfg0 fs0 reqUnknownTool).1).isThrown = false
    ∧ (JParams.obj (some "frobnicate") none = JParams.prim →
        handleSingleCall cfg0 fs0 reqUnknownTool =
          (.ok ⟨reqUnknownTool.id,
            .error (-32000) "tools[name] is not a function"⟩, fs0))
    ∧ (∀ name args,
        JParams.obj (some "frobnicate") none = JParams.obj name args →
        name.bind (toolsRegistry cfg0) = none →
        handleSingleCall cfg0 fs0 reqUnknownTool =
          (.ok ⟨reqUnknownTool.id,
            .error (-32000) "tools[name] is not a function"⟩, fs0))
    ∧ (∀ name args handler m fs',
        JParams.obj (some "frobnicate") none = JParams.obj name args →
        name.bind (toolsRegistry cfg0) = some handler →
        handler args fs0 = (.error m, fs') →
        handleSingleCall cfg0 fs0 reqUnknownTool =
          (.ok ⟨reqUnknownTool.id, .error (-32000) m⟩, fs'))
    ∧ (∀ name args handler v fs',
        JParams.obj (some "frobnicate") none = JParams.obj name args →
        name.bind (toolsRegistry cfg0) = some handler →
        handler args fs0 = (.ok v, fs') →
        handleSingleCall cfg0 fs0 reqUnknownTool =
          (.ok ⟨reqUnknownTool.id, .toolText v⟩, fs')) :=
  c3_dispatch_errors_amended cfg0 fs0 reqUnknownTool
    (.obj (some "frobnicate") none) rfl rfl (by decide)

/-! ## Claim C8 -/

/-- C8: for any inbound POST to `/mcp` — whatever the body, even one
that would fail to parse — an absent bearer credential or one not
exactly equal to `"Bearer " ++ token` is answered with status 401 and
the `-32001` envelope, with the filesystem untouched (the dispatcher is
never invoked and the body never parsed: the reply is independent of
the body); and only a request whose credential matches exactly proceeds
to body handling and the dispatcher. -/
theorem c8_auth_gate (cfg : Config) (fs : FS) (req : HttpRequest)
    (hm : req.method = "POST") (hu : req.url = "/mcp") :
    (req.authorization ≠ some ("Bearer " ++ cfg.authToken) →
      serverHandler cfg fs req =
        (⟨401, .envelope ⟨none, .error (-32001) "Unauthorized"⟩⟩, fs))
    ∧ (req.authorization = some ("Bearer " ++ cfg.authToken) →
      serverHandler cfg fs req = handleParsedBody cfg fs req.body) := by
  rcases req with ⟨m, u, auth, body⟩
  simp only at hm hu
  subst hm hu
  cases auth with
  | none => exact ⟨fun _ => rfl, fun h => by cases h⟩
  | some h =>
    constructor
    · intro hne
      have : ¬h = "Bearer " ++ cfg.authToken := fun he => hne (by rw [he])
      simp [serverHandler, this]
    · intro he
      have : h = "Bearer " ++ cfg.authToken := by injection he
      simp [serverHandler, this]

/-- Witness for C8: a POST to `/mcp` carrying the wrong bearer value
under `cfg0`. -/
theorem c8_auth_gate_witness :
    ((⟨"POST", "/mcp", some "Bearer wrong", .single reqInit⟩ :
        HttpRequest).authorization ≠ some ("Bearer " ++ cfg0.authToken) →
      serverHandler cfg0 fs0 ⟨"POST", "/mcp", some "Bearer wrong", .single reqInit⟩ =
        (⟨401, .envelope ⟨none, .error (-32001) "Unauthorized"⟩⟩, fs0))
    ∧ ((⟨"POST", "/mcp", some "Bearer wrong", .single reqInit⟩ :
        HttpRequest).authorization = some ("Bearer " ++ cfg0.authToken) →
      serverHandler cfg0 fs0 ⟨"POST", "/mcp", some "Bearer wrong", .single reqInit⟩ =
        handleParsedBody cfg0 fs0
          (⟨"POST", "/mcp", some "Bearer wrong", .single reqInit⟩ :
            HttpRequest).body) :=
  c8_auth_gate cfg0 fs0 ⟨"POST", "/mcp", some "Bearer wrong", .single reqInit⟩
    rfl rfl

/-! ## Claim C9 -/

/-- C9 (counterexample): when the body fails to parse, the 500 error
envelope does NOT carry `"id": null` — it is an object literal with no
`id` member at all (`id = none` in the model, whereas an explicit null
would be `some Jid.jnull`). -/
theorem c9_parse_error_id_absent :
    (handleParsedBody cfg0 fs0
        (.malformed "Unexpected token u in JSON at position 0")).1 =
      ⟨500, .envelope ⟨none,
        .error (-32000) "Unexpected token u in JSON at position 0"⟩⟩
    ∧ (none : Option Jid) ≠ some Jid.jnull :=
  ⟨rfl, by decide⟩

/-- C9 (amended): every envelope the dispatcher fulfills — success or
error — echoes the request's `id` member verbatim (including an absent
id, echoed as absent); but when the id cannot be determined because the
body is malformed, the top-level error envelope OMITS the `id` member
entirely rather than carrying `id: null`. -/
theorem c9_id_echo_amended (cfg : Config) (fs : FS) (req : Request)
    (resp : Response) (fs' : FS) (m : String)
    (h : handleSingleCall cfg fs req = (.ok resp, fs')) :
    resp.id = req.id
    ∧ (handleParsedBody cfg fs (.malformed m)).1.payload =
      .envelope ⟨none, .error (-32000) m⟩ :=
  ⟨dispatch_ok_id cfg fs req resp fs' h, rfl⟩

/-! ## Claim C5 -/

/-- C5 (counterexample): with `by = "extension"` the group key is NOT
the extension lower-cased: the file `/data/A.TXT` is filed under key
`"TXT"` (the extension exactly as written, dot stripped), and moved to
`/data/TXT/A.TXT`, whereas the claim requires the key `"txt"`. -/
theorem c5_extension_not_lowercased :
    organize_files cfg0 (some orgExtArgs) fsUpper =
      (.ok (.groups [("TXT", ["TXT/A.TXT"])]), ⟨[⟨"/data/TXT/A.TXT", "", 0⟩]⟩)
    ∧ ("TXT" : String) ≠ "txt" :=
  ⟨rfl, by decide⟩

/-- C5 (amended): for every configuration and filesystem,
`organize_files` processes exactly the files the glob reports — all
recursively discoverable files EXCEPT those with a dot-leading path
component, which the glob's default excludes — and files each under the
group key computed by `groupKeyOf`: for `by = "extension"` the
extension without its leading dot exactly as written (NOT lower-cased;
`"no-extension"` when empty), for `by = "date"` the UTC ISO calendar
day of the file's mtime. Each key's returned list is precisely
`key/basename` of its files, in glob order (first two conjuncts). The
concrete runs (last two conjuncts) show the files are MOVED, not
copied: afterwards the originals are gone from the top level, the moved
files sit in their group directories, and the dot-file is untouched. -/
theorem c5_organize_amended (cfg : Config) (fs : FS) (k : String) :
    (organizeGroupsOf (organize_files cfg (some orgExtArgs) fs)).map
        (fun g => groupVals g k) =
      some ((globFiles cfg.workingDir fs).filterMap (fun f =>
        if (groupKeyOf "extension" f).getD "" = k
        then some (k ++ "/" ++ basenameOf f.path) else none))
    ∧ (organizeGroupsOf (organize_files cfg (some orgDateArgs) fs)).map
        (fun g => groupVals g k) =
      some ((globFiles cfg.workingDir fs).filterMap (fun f =>
        if (groupKeyOf "date" f).getD "" = k
        then some (k ++ "/" ++ basenameOf f.path) else none))
    ∧ organize_files cfg0 (some orgExtArgs) fsOrg =
      (.ok (.groups [("txt", ["txt/x.txt"]), ("log", ["log/y.log"])]),
        ⟨[⟨"/data/txt/x.txt", "hello", 0⟩, ⟨"/data/log/y.log", "ok", 86400000⟩,
          ⟨"/data/.hidden", "h", 0⟩]⟩)
    ∧ organize_files cfg0 (some orgDateArgs) fsOrg =
      (.ok (.groups [("1970-01-01", ["1970-01-01/x.txt"]),
          ("1970-01-02", ["1970-01-02/y.log"])]),
        ⟨[⟨"/data/1970-01-01/x.txt", "hello", 0⟩,
          ⟨"/data/1970-01-02/y.log", "ok", 86400000⟩,
          ⟨"/data/.hidden", "h", 0⟩]⟩) := by
  refine ⟨?_, ?_, rfl, rfl⟩
  · have hby : ∀ f : FSFile, (groupKeyOf "extension" f).isSome = true := by
      intro f; simp [groupKeyOf]
    have h := organizeGo_groups cfg.workingDir "extension" hby
      (globFiles cfg.workingDir fs) [] fs k
    simpa [organize_files, orgExtArgs, groupVals] using h
  · have hby : ∀ f : FSFile, (groupKeyOf "date" f).isSome = true := by
      intro f; simp [groupKeyOf]
    have h := organizeGo_groups cfg.workingDir "date" hby
      (globFiles cfg.workingDir fs) [] fs k
    simpa [organize_files, orgDateArgs, groupVals] using h

/-- Witness for C9 at the concrete request `reqBogus` (answered by the
`-32600` envelope, which still echoes id 2) and a concrete parse-error
message. -/
theorem c9_id_echo_amended_witness :
    respBogus.id = reqBogus.id
    ∧ (handleParsedBody cfg0 fs0 (.malformed "bad json")).1.payload =
      .envelope ⟨none, .error (-32000) "bad json"⟩ :=
  c9_id_echo_amended cfg0 fs0 reqBogus respBogus fs0 "bad json" rfl

end FilesAssistant
